import Mathlib

/-!
Shallow embedding of the research-agent pipeline (`src/graph.py`), the
collector layer (`src/collectors/`), the subscriber store (`src/storage.py`)
and the daily scheduler (`src/scheduler.py`), with theorems checking the
natural-language specification against the code.

Modelling conventions:
* Python strings become Lean `String`s (both count code points).
* External effects (HTTP fetches, the LLM, `json.loads`) become explicit
  oracle parameters; everything the repository itself computes is embedded
  directly from the source.
* The LangGraph state machine of `build_graph` becomes a step function over
  an explicit node tag, iterated with fuel; a run "terminates" when it
  reaches the `done` node.
-/

namespace ResearchAgent

/-- Transport form of an item as built in `collect_node`
(`{"title", "content", "url", "source"}`). -/
structure TItem where
  title : String
  content : String
  url : String
  source : String
deriving DecidableEq, Repr

/-- `CollectedItem` (pydantic model in `collectors/base_collector.py`):
`source`, `title`, `content` are required; `url`, `published_at` default to
`""` and `metadata` to the empty map. -/
structure CollectedItem where
  source : String
  title : String
  content : String
  url : String := ""
  published_at : String := ""
  metadata : List (String × String) := []
deriving DecidableEq, Repr

/-- Field values handed to the pydantic constructor: `none` means the field
was not supplied by the collector. -/
structure CollectedItemFields where
  source : Option String := none
  title : Option String := none
  content : Option String := none
  url : Option String := none
  published_at : Option String := none
  metadata : Option (List (String × String)) := none
deriving DecidableEq, Repr

/-- Pydantic validation of `CollectedItem`: required fields must be present
(a missing or null required field raises a ValidationError), optional fields
take their declared defaults. -/
def mkCollectedItem (f : CollectedItemFields) : Except String CollectedItem :=
  match f.source, f.title, f.content with
  | some s, some t, some c =>
      .ok { source := s, title := t, content := c,
            url := f.url.getD "", published_at := f.published_at.getD "",
            metadata := f.metadata.getD [] }
  | _, _, _ => .error "ValidationError: field required"

/-- Registry keys of `COLLECTOR_REGISTRY` in `src/collectors/__init__.py`. -/
def REGISTRY_KEYS : List String :=
  ["news", "news_rapidapi", "weather", "crypto", "dexscreener", "reddit",
   "github", "arxiv", "stocks", "wikipedia", "ddg", "ddg_news", "serper",
   "tmz", "cryptonews"]

/-- `AVAILABLE_SOURCES = list(COLLECTOR_REGISTRY.keys())` in `src/graph.py`. -/
def AVAILABLE_SOURCES : List String := REGISTRY_KEYS

/-- Python slice `s[:n]` (counts code points, as Lean `String.length` does). -/
def pySlice (s : String) (n : Nat) : String :=
  ⟨s.data.take n⟩

/-- ASCII upper-casing of one character (`str.upper` on the ASCII source
names this code applies it to). -/
def pyUpperChar (c : Char) : Char :=
  if 97 ≤ c.toNat ∧ c.toNat ≤ 122 then Char.ofNat (c.toNat - 32) else c

/-- Python `s.upper()` (ASCII range). -/
def pyUpper (s : String) : String :=
  ⟨s.data.map pyUpperChar⟩

/-- Python `sep.join(l)`. -/
def pyJoin (sep : String) : List String → String
  | [] => ""
  | [x] => x
  | x :: xs => x ++ sep ++ pyJoin sep xs

/-- Decidable equality for `Except`, used to evaluate the embedding on
concrete runs. -/
instance {ε α : Type} [DecidableEq ε] [DecidableEq α] : DecidableEq (Except ε α) :=
  fun x y =>
    match x, y with
    | .ok a, .ok b =>
      if h : a = b then .isTrue (by rw [h])
      else .isFalse (by intro hc; cases hc; exact h rfl)
    | .error a, .error b =>
      if h : a = b then .isTrue (by rw [h])
      else .isFalse (by intro hc; cases hc; exact h rfl)
    | .ok _, .error _ => .isFalse (by intro hc; cases hc)
    | .error _, .ok _ => .isFalse (by intro hc; cases hc)

/-- Python `repr` of a list of strings, as interpolated into the
`ValueError` message of `get_collector`. -/
def pyListRepr (l : List String) : String :=
  "[" ++ pyJoin ", " (l.map (fun k => "\x27" ++ k ++ "\x27")) ++ "]"

/-- The message of the `ValueError` raised by `get_collector` on an unknown
source name. -/
def unknownCollectorMsg (source : String) : String :=
  "Unknown collector: " ++ source ++ ". Available: " ++ pyListRepr REGISTRY_KEYS

/-- `get_collector` (`src/collectors/__init__.py`): registry lookup; raises
`ValueError` when the name is absent. The constructed collector itself is
opaque here, so success carries just the name. -/
def get_collector (source : String) : Except String String :=
  if source ∈ REGISTRY_KEYS then .ok source
  else .error (unknownCollectorMsg source)

/-- `FALLBACK_CHAIN.get(original, ["news", "reddit", "ddg_news"])` from
`src/graph.py`. -/
def FALLBACK_CHAIN (source : String) : List String :=
  if source = "ddg" then ["ddg_news", "news", "reddit"]
  else if source = "ddg_news" then ["news", "ddg", "reddit"]
  else if source = "news" then ["ddg_news", "ddg", "reddit"]
  else if source = "wikipedia" then ["ddg", "news"]
  else if source = "arxiv" then ["ddg", "news", "github"]
  else if source = "crypto" then ["cryptonews", "ddg_news", "news"]
  else if source = "cryptonews" then ["crypto", "ddg_news", "news"]
  else if source = "stocks" then ["ddg", "news"]
  else if source = "reddit" then ["ddg", "news"]
  else if source = "github" then ["ddg", "news"]
  else if source = "weather" then ["ddg"]
  else if source = "serper" then ["ddg", "news"]
  else if source = "tmz" then ["ddg_news", "news"]
  else ["news", "reddit", "ddg_news"]

/-- `AgentState` (`src/graph.py`). The TypedDict is total here: in every
state reachable from the entry points all keys are present, with `""` / `[]`
/ `0` standing for the initial values the callers supply. -/
structure AgentState where
  user_message : String := ""
  source : String := ""
  query : String := ""
  items : List TItem := []
  analysis : String := ""
  response : String := ""
  error : String := ""
  model : String := ""
  analysis_model : String := ""
  tried_sources : List String := []
  retry_count : Nat := 0
deriving DecidableEq, Repr

/-- Outcome of one `collector.collect(query, limit=5)` call (plus the
`collector.close()` in the `finally`), as seen by `collect_node`: either a
list of collected items or a raised exception with its message. -/
inductive FetchOutcome where
  | items (l : List CollectedItem)
  | exn (msg : String)
deriving DecidableEq, Repr

/-- Environment of one pipeline execution. `fetch n src` is the outcome of
the `(n+1)`-th collect call of the run when it targets source `src`
(`n = len(tried_sources)` at call time). -/
structure CollectEnv where
  fetch : Nat → String → FetchOutcome

/-- Conversion in `collect_node`:
`{"title": item.title, "content": item.content, "url": item.url, "source": item.source}`. -/
def toTransport (it : CollectedItem) : TItem :=
  { title := it.title, content := it.content, url := it.url, source := it.source }

/-- `collect_node` (`src/graph.py` lines 89–114). Appends the current source
to `tried_sources`, then looks up the collector and calls it inside one
`try`: a `ValueError` from `get_collector` is caught by the same
`except Exception` as a collector failure. -/
def collect_node (env : CollectEnv) (s : AgentState) : AgentState :=
  let tried := s.tried_sources ++ [s.source]
  match get_collector s.source with
  | .error msg =>
      { s with items := [], error := "Failed: " ++ s.source ++ " (" ++ msg ++ ")",
               tried_sources := tried }
  | .ok _ =>
    match env.fetch s.tried_sources.length s.source with
    | .items raw =>
        let items := raw.map toTransport
        if items.isEmpty then
          { s with items := [], error := "No results from " ++ s.source,
                   tried_sources := tried }
        else
          { s with items := items, error := "", tried_sources := tried }
    | .exn m =>
        { s with items := [], error := "Failed: " ++ s.source ++ " (" ++ m ++ ")",
                 tried_sources := tried }

/-- `retry_node` (`src/graph.py` lines 117–136): pick the first fallback of
the original source not yet tried; if none, set the exhaustion sentinel
`retry_count = 99` (leaving `source` unchanged); otherwise switch `source`,
clear `error` and increment `retry_count`. -/
def retry_node (s : AgentState) : AgentState :=
  let original := s.tried_sources.headD s.source
  let fallbacks := FALLBACK_CHAIN original
  match fallbacks.find? (fun fb => fb ∉ s.tried_sources) with
  | none => { s with retry_count := 99 }
  | some next =>
      { s with source := next, error := "", retry_count := s.retry_count + 1 }

/-- `_should_retry` (`src/graph.py` lines 216–227), with `max_retries = 2`. -/
def should_retry (s : AgentState) : String :=
  if ¬ s.items.isEmpty then "analyze"
  else if s.retry_count ≥ 2 then "analyze"
  else "retry"

/-- Python `s.replace(pat, "", 1)`: remove the first occurrence of `pat`. -/
def removeFirst (s pat : String) : String :=
  match s.splitOn pat with
  | [] => s
  | [x] => x
  | x :: xs => x ++ String.intercalate pat xs

/-- Environment of one pipeline execution: the outcomes of every external
call the run makes. `routeConstruct` / `analyzeConstruct` model
`get_llm_client(...)` (which raises when required configuration is missing);
the `Completion` fields model `llm.complete(...)` + `llm.get_text(...)`;
`jsonParse` models `json.loads` on the fence-stripped router reply; `fetch`
is as in `CollectEnv`. -/
structure PipelineEnv where
  routeConstruct : Except String Unit := .ok ()
  routeCompletion : Except String String := .error "LLM down"
  jsonParse : String → Except String (List (String × String)) := fun _ => .error "not JSON"
  fetch : Nat → String → FetchOutcome := fun _ _ => .items []
  analyzeConstruct : Except String Unit := .ok ()
  analyzeCompletion : Except String String := .error "LLM down"
  ollama_analysis_model : String := "llama3:latest"

/-- The text fed to `json.loads` in `route_node`: the stripped LLM reply,
with the part between the first pair of code fences extracted (its first
`"json"` tag removed) when fences are present. -/
def route_text (raw : String) : String :=
  let text := raw.trim
  let parts := text.splitOn "```"
  if parts.length > 1 then (removeFirst (parts[1]?.getD "") "json").trim
  else text

/-- Result of `route_node`: a normal return (recording whether an LLM handle
was constructed and whether it was closed), or a propagated exception. -/
inductive RouteResult where
  | ok (s : AgentState) (constructed closed : Bool)
  | raised (msg : String)
deriving DecidableEq, Repr

/-- `route_node` (`src/graph.py` lines 54–86). Pass through when the caller
preset truthy `source` and `query`; otherwise construct the LLM client
*outside* the `try`, then route via one completion, stripping code fences
and parsing JSON tolerantly, coercing an unregistered source to `"news"`;
any exception inside the `try` falls back to `source = "news"`,
`query = user_message`; the `finally` closes the handle on every exit of
the `try`. -/
def route_node (env : PipelineEnv) (s : AgentState) : RouteResult :=
  if s.source ≠ "" ∧ s.query ≠ "" then
    .ok { s with tried_sources := [], retry_count := 0 } false false
  else
    match env.routeConstruct with
    | .error m => .raised m
    | .ok _ =>
      match env.routeCompletion with
      | .error _ =>
          .ok { s with source := "news", query := s.user_message,
                       tried_sources := [], retry_count := 0 } true true
      | .ok raw =>
        match env.jsonParse (route_text raw) with
        | .error _ =>
            .ok { s with source := "news", query := s.user_message,
                         tried_sources := [], retry_count := 0 } true true
        | .ok kvs =>
          let source0 := (kvs.lookup "source").getD "news"
          let query := (kvs.lookup "query").getD s.user_message
          let source := if source0 ∈ AVAILABLE_SOURCES then source0 else "news"
          .ok { s with source := source, query := query,
                       tried_sources := [], retry_count := 0 } true true

/-- The deterministic fallback assembly in `analyze_node`'s `except` branch. -/
def analyze_fallback (s : AgentState) : String :=
  (s.items.take 5).foldl
    (fun acc item =>
      acc ++ "• *" ++ item.title ++ "*\n" ++
        (if item.url ≠ "" then
          "  [" ++ pySlice item.title 40 ++ "](" ++ item.url ++ ")\n"
        else ""))
    ("*" ++ pyUpper s.source ++ " results for \x27" ++ s.query ++ "\x27*\n\n")

/-- `analyze_node` (`src/graph.py` lines 139–187). With an error set or no
items, `analysis = state.get("error", "No data to analyze.")` — the key is
present in every reachable state, so this is `s.error`. Otherwise the LLM
client is constructed (outside the `try`; a construction failure
propagates) and its completion becomes the analysis, falling back to the
deterministic assembly on an in-`try` failure. -/
def analyze_node (env : PipelineEnv) (s : AgentState) : Except String AgentState :=
  if s.error ≠ "" ∨ s.items.isEmpty then
    .ok { s with analysis := s.error }
  else
    match env.analyzeConstruct with
    | .error m => .error m
    | .ok _ =>
      match env.analyzeCompletion with
      | .ok text => .ok { s with analysis := text }
      | .error _ => .ok { s with analysis := analyze_fallback s }

/-- The header `respond_node` assembles: source in uppercase, query, model
tag, and a retry note when more than one source was tried. -/
def respond_header (env : PipelineEnv) (s : AgentState) : String :=
  let aModel := if s.analysis_model ≠ "" then s.analysis_model
                else env.ollama_analysis_model
  let tag := " `[" ++ aModel ++ "]`"
  let note := if s.tried_sources.length > 1 then
      "\n_Tried " ++ pyJoin ", " s.tried_sources.dropLast ++
        " first, used " ++ s.tried_sources.getLastD "" ++ "._\n"
    else ""
  "🔍 *" ++ pyUpper s.source ++ "* — " ++ s.query ++ tag ++ "\n" ++ note ++ "\n"

/-- The text assembled by `respond_node` before the size cap: header plus
analysis. -/
def respond_full (env : PipelineEnv) (s : AgentState) : String :=
  respond_header env s ++ s.analysis

/-- `respond_node` (`src/graph.py` lines 190–210): assemble the full text,
hard-truncating to `full[:4090] + "\n..."` when it exceeds 4096 characters. -/
def respond_node (env : PipelineEnv) (s : AgentState) : AgentState :=
  let full := respond_full env s
  { s with response :=
      if full.length > 4096 then pySlice full 4090 ++ "\n..." else full }

/-- Node tags of the compiled LangGraph workflow (`build_graph`). -/
inductive Node where
  | route | collect | retry | analyze | respond | done
deriving DecidableEq, Repr

/-- One transition of the compiled graph: `route → collect` and
`retry → collect` unconditionally, `collect → (analyze | retry)` by
`_should_retry`, `analyze → respond → END`. An exception propagating out of
a node aborts the run. -/
def stepG (env : PipelineEnv) : Node → AgentState → Except String (Node × AgentState)
  | .route, s =>
    match route_node env s with
    | .raised m => .error m
    | .ok s' _ _ => .ok (.collect, s')
  | .collect, s =>
    let s' := collect_node ⟨env.fetch⟩ s
    .ok (if should_retry s' = "analyze" then .analyze else .retry, s')
  | .retry, s => .ok (.collect, retry_node s)
  | .analyze, s => (analyze_node env s).map (fun s' => (.respond, s'))
  | .respond, s => .ok (.done, respond_node env s)
  | .done, s => .ok (.done, s)

/-- Iterate the graph for `fuel` steps (the `done` node is absorbing). -/
def runG (env : PipelineEnv) : Nat → Node × AgentState → Except String (Node × AgentState)
  | 0, ns => .ok ns
  | fuel + 1, (nd, s) =>
    if nd = .done then .ok (nd, s)
    else
      match stepG env nd s with
      | .error m => .error m
      | .ok ns' => runG env fuel ns'

/-! ### `BaseCollector.collect` (`src/collectors/base_collector.py` lines 34–64)

The loop `for attempt in range(self.max_retries)` is embedded structurally:
`collect_loop fetch base attempt remaining` runs the body while
`remaining > 0`, with `attempt + remaining = max_retries` at every entry, so
`remaining = 1` exactly when `attempt == self.max_retries - 1`.  The result
records the returned/raised value, the number of `_fetch` calls made, and
the list of back-off delays slept (in seconds, as exact rationals). -/

/-- One run of the retry loop of `BaseCollector.collect`. -/
def collect_loop (fetch : Nat → Except String (List CollectedItem)) (base : ℚ) :
    Nat → Nat → Except String (List CollectedItem) × Nat × List ℚ
  | attempt, 0 => (.ok [], attempt, [])
  | attempt, remaining + 1 =>
    match fetch attempt with
    | .ok items => (.ok items, attempt + 1, [])
    | .error e =>
      if remaining = 0 then (.error e, attempt + 1, [])
      else
        let r := collect_loop fetch base (attempt + 1) remaining
        (r.1, r.2.1, base * 2 ^ attempt :: r.2.2)

/-- `BaseCollector.collect(query)`: run the retry loop from attempt 0.
`fetch n` is the outcome of the `(n+1)`-th `_fetch` call. -/
def base_collect (fetch : Nat → Except String (List CollectedItem))
    (max_retries : Nat) (base_delay : ℚ) :
    Except String (List CollectedItem) × Nat × List ℚ :=
  collect_loop fetch base_delay 0 max_retries

/-! ### Weather collector item construction (`src/collectors/weather.py` lines 72–98) -/

/-- The field values `WeatherCollector._fetch` passes to `CollectedItem` in
its JSON (`j1`) branch, given the strings extracted from the wttr.in
response. -/
def weather_j1_fields (area_name country desc temp_c temp_f feels_like
    humidity wind_speed location forecast : String) : CollectedItemFields :=
  { source := some "weather_wttr",
    title := some ("Weather: " ++ area_name ++ ", " ++ country),
    content := some ("Weather in " ++ area_name ++ ", " ++ country ++ ": " ++
      desc ++ ". Temperature: " ++ temp_c ++ "°C (" ++ temp_f ++
      "°F), feels like " ++ feels_like ++ "°C. Humidity: " ++ humidity ++
      "%, Wind: " ++ wind_speed ++ " km/h." ++ forecast),
    url := some ("https://wttr.in/" ++ location),
    metadata := some [("temp_c", temp_c), ("temp_f", temp_f),
      ("humidity", humidity), ("wind_kmph", wind_speed),
      ("description", desc), ("location", area_name), ("country", country)] }

/-! ### Subscriber store (`src/storage.py` lines 75–110)

The `wa_subscribers` table is a list of rows; the `UNIQUE` constraint on
`phone_number` is the `Nodup` hypothesis of the theorems.  A
`SELECT ... WHERE phone_number = p` followed by a mutation of the found row
is embedded as a map that rewrites every row with that phone number — the
same thing when phone numbers are unique. -/

/-- A `wa_subscribers` row (`subscribed_at` omitted: no claim touches it).
`active` is the 1/0 integer column. -/
structure WhatsAppSubscriber where
  phone_number : String
  active : Nat := 1
  preferences : String := "news,crypto,stocks"
deriving DecidableEq, Repr

/-- `add_wa_subscriber` (upsert): flip the existing row to active with the
new preferences, or insert a fresh active row. -/
def add_wa_subscriber (phone_number preferences : String)
    (db : List WhatsAppSubscriber) : List WhatsAppSubscriber :=
  match db.find? (fun r => r.phone_number == phone_number) with
  | some _ => db.map (fun r =>
      if r.phone_number == phone_number then
        { r with active := 1, preferences := preferences }
      else r)
  | none => db ++ [{ phone_number := phone_number, active := 1,
                     preferences := preferences }]

/-- `remove_wa_subscriber` (soft delete): set `active = 0` on the existing
row, if any. -/
def remove_wa_subscriber (phone_number : String)
    (db : List WhatsAppSubscriber) : List WhatsAppSubscriber :=
  match db.find? (fun r => r.phone_number == phone_number) with
  | some _ => db.map (fun r =>
      if r.phone_number == phone_number then { r with active := 0 } else r)
  | none => db

/-- `get_wa_subscribers`: all rows with `active = 1`. -/
def get_wa_subscribers (db : List WhatsAppSubscriber) : List WhatsAppSubscriber :=
  db.filter (fun r => r.active == 1)

/-! ### Scheduler next-wake computation (`src/scheduler.py` lines 93–103)

Wall-clock time is a `Nat` count of seconds; `DAY` divides it into days and
`now % DAY` is the time of day.  `scheduler_loop` computes
`target = now.replace(hour, minute, second=0, microsecond=0)` and adds one
day when `now >= target`; the absolute fire instant it sleeps until is
embedded as `next_wake`.  (Sub-second precision changes nothing: the same
function over microsecond ticks has the same structure.) -/

/-- Seconds per day. -/
def DAY : Nat := 86400

/-- Seconds after midnight of the configured `hour:minute` target. -/
def target_tod (hour minute : Nat) : Nat := hour * 3600 + minute * 60

/-- The absolute instant `scheduler_loop` sleeps until, evaluated at `now`. -/
def next_wake (hour minute now : Nat) : Nat :=
  let target := target_tod hour minute
  let tod := now % DAY
  if target ≤ tod then now - tod + target + DAY else now - tod + target

/-! ### Concrete example inputs used to evaluate the theorems -/

/-- Environment where every collector returns no items and the LLM is down. -/
def exenv : PipelineEnv := {}

/-- A preset `weather` query, as the daily scheduler submits it. -/
def exs0 : AgentState :=
  { user_message := "Daily weather update", source := "weather", query := "London" }

/-- The state of the `exenv` run of `exs0` on its second entry to the retry
node, where the fallback list of `weather` is exhausted. -/
def exsRetry : AgentState :=
  { user_message := "Daily weather update", source := "ddg", query := "London",
    error := "No results from ddg", tried_sources := ["weather", "ddg"],
    retry_count := 1 }

/-- Final state of the `exenv` pipeline run on `exs0`. -/
def exsF : AgentState :=
  { user_message := "Daily weather update", source := "ddg", query := "London",
    items := [], analysis := "No results from ddg",
    response := "🔍 *DDG* — London `[llama3:latest]`\n\n_Tried weather, ddg first, used ddg._\n\nNo results from ddg",
    error := "No results from ddg", tried_sources := ["weather", "ddg", "ddg"],
    retry_count := 99 }

/-- A caller-preset state naming a source that is not a registry key. -/
def bogusState : AgentState :=
  { user_message := "x", source := "bogus", query := "q" }

/-- Environment where `get_llm_client` raises (missing provider key). -/
def wenvFail : PipelineEnv :=
  { routeConstruct :=
      .error "OPENROUTER_API_KEY is required when using openrouter provider" }

/-- Environment where the router LLM call itself fails after construction. -/
def wenvDown : PipelineEnv := { routeCompletion := .error "LLM down" }

/-- A free-text request (no preset source/query). -/
def wsFree : AgentState := { user_message := "Tell me about Python programming" }

/-- Collector field values missing the required `content` field. -/
def contentlessFields : CollectedItemFields :=
  { source := some "s", title := some "t" }

/-- An over-long analysis (5000 characters) to exercise truncation. -/
def longAnalysisState : AgentState :=
  { source := "news", query := "AI", items := [⟨"t", "c", "", "news"⟩],
    analysis := ⟨List.replicate 5000 'a'⟩ }

/-- A `_fetch` oracle that fails on every attempt with a distinct message. -/
def exfetchFail : Nat → Except String (List CollectedItem) :=
  fun n => .error ("boom" ++ toString n)

/-- A `_fetch` oracle that immediately returns an empty item list. -/
def exfetchEmpty : Nat → Except String (List CollectedItem) :=
  fun _ => .ok []

/-- A single-item fetch outcome for the `weather` source. -/
def exWeatherItem : CollectedItem :=
  { source := "weather_wttr", title := "Weather: London, United Kingdom",
    content := "Weather in London, United Kingdom: Sunny. Temperature: 15°C (59°F), feels like 14°C. Humidity: 60%, Wind: 10 km/h." }

/-- Environment whose first collect call returns one weather item. -/
def exenvHit : PipelineEnv := { fetch := fun _ _ => .items [exWeatherItem] }

/-- Whether a `_fetch` outcome is a raised exception. -/
def isErrorB : Except String (List CollectedItem) → Bool
  | .error _ => true
  | .ok _ => false

/-- Fully-supplied collector fields for an arXiv-style item. -/
def plainFields : CollectedItemFields :=
  { source := some "arxiv", title := some "Paper", content := some "body" }

/-- The validated item `plainFields` yields. -/
def plainItem : CollectedItem :=
  { source := "arxiv", title := "Paper", content := "body" }

/-! ## Theorems -/

/-- String length distributes over append (both count code points). -/
theorem strLength_append (a b : String) : (a ++ b).length = a.length + b.length := by
  cases a with
  | mk la =>
    cases b with
    | mk lb =>
      show (la ++ lb).length = la.length + lb.length
      exact List.length_append la lb

/-- Length of a Python-style slice. -/
theorem pySlice_length (s : String) (n : Nat) :
    (pySlice s n).length = min n s.length := by
  cases s with
  | mk l =>
    show (l.take n).length = min n l.length
    exact List.length_take n l

/-- The truncation branch of `respond_node` caps the response at 4094
characters; the other branch leaves a string that was already short. -/
theorem respond_node_length_le (env : PipelineEnv) (s : AgentState) :
    (respond_node env s).response.length ≤ 4096 := by
  show (if (respond_full env s).length > 4096 then
      pySlice (respond_full env s) 4090 ++ "\n..."
    else respond_full env s).length ≤ 4096
  by_cases h : (respond_full env s).length > 4096
  · rw [if_pos h, strLength_append, pySlice_length]
    have h4 : ("\n..." : String).length = 4 := rfl
    omega
  · rw [if_neg h]
    omega

/-- Generic invariant-preservation lemma for the graph runner. -/
theorem runG_inv (env : PipelineEnv) (Inv : Node → AgentState → Prop)
    (hstep : ∀ nd s nd' s', Inv nd s → stepG env nd s = .ok (nd', s') →
      Inv nd' s') :
    ∀ fuel nd s nd' s', Inv nd s →
      runG env fuel (nd, s) = .ok (nd', s') → Inv nd' s' := by
  intro fuel
  induction fuel with
  | zero =>
    intro nd s nd' s' h hr
    simp only [runG, Except.ok.injEq, Prod.mk.injEq] at hr
    obtain ⟨rfl, rfl⟩ := hr
    exact h
  | succ n ih =>
    intro nd s nd' s' h hr
    rw [runG] at hr
    by_cases hd : nd = Node.done
    · simp only [hd, if_pos] at hr
      simp only [Except.ok.injEq, Prod.mk.injEq] at hr
      obtain ⟨rfl, rfl⟩ := hr
      simpa [hd] using h
    · simp only [if_neg (by simpa using hd)] at hr
      cases hst : stepG env nd s with
      | error m => rw [hst] at hr; cases hr
      | ok ns' =>
        rw [hst] at hr
        exact ih ns'.1 ns'.2 nd' s' (hstep nd s ns'.1 ns'.2 h (by
          simpa using hst)) (by simpa using hr)

/-- Every normal return of `route_node` resets the retry bookkeeping. -/
theorem route_node_resets (env : PipelineEnv) (s s' : AgentState) (c cl : Bool)
    (h : route_node env s = .ok s' c cl) :
    s'.tried_sources = [] ∧ s'.retry_count = 0 := by
  unfold route_node at h
  split at h
  · cases h; exact ⟨rfl, rfl⟩
  · split at h
    · cases h
    · split at h
      · cases h; exact ⟨rfl, rfl⟩
      · split at h
        · cases h; exact ⟨rfl, rfl⟩
        · cases h; exact ⟨rfl, rfl⟩

/-- `collect_node` appends the current source to the trail and leaves
`source` and `retry_count` unchanged. -/
theorem collect_node_fields (env : CollectEnv) (s : AgentState) :
    (collect_node env s).tried_sources = s.tried_sources ++ [s.source] ∧
    (collect_node env s).retry_count = s.retry_count ∧
    (collect_node env s).source = s.source := by
  cases hg : get_collector s.source with
  | error m => simp [collect_node, hg]
  | ok n =>
    cases hf : env.fetch s.tried_sources.length s.source with
    | items raw =>
      by_cases he : (raw.map toTransport).isEmpty = true <;>
        simp [collect_node, hg, hf, he]
    | exn m => simp [collect_node, hg, hf]

/-- A successful `analyze_node` touches only the `analysis` field. -/
theorem analyze_node_fields (env : PipelineEnv) (s s' : AgentState)
    (h : analyze_node env s = .ok s') :
    s'.tried_sources = s.tried_sources ∧ s'.retry_count = s.retry_count ∧
    s'.response = s.response := by
  unfold analyze_node at h
  split at h
  · cases h; exact ⟨rfl, rfl, rfl⟩
  · split at h
    · cases h
    · split at h
      · cases h; exact ⟨rfl, rfl, rfl⟩
      · cases h; exact ⟨rfl, rfl, rfl⟩

/-- Per-node invariant behind the retry/source bounds of the pipeline. -/
def InvC1 : Node → AgentState → Prop
  | .route, _ => True
  | .collect, s =>
      (s.retry_count ≤ 2 ∧
        (s.tried_sources ++ [s.source]).toFinset.card ≤ s.retry_count + 1)
      ∨ (s.retry_count = 99 ∧ s.source ∈ s.tried_sources ∧
          s.tried_sources.toFinset.card ≤ 3)
  | .retry, s =>
      s.retry_count ≤ 1 ∧ s.tried_sources.toFinset.card ≤ s.retry_count + 1 ∧
      s.source ∈ s.tried_sources
  | _, s =>
      (s.retry_count ≤ 2 ∨ s.retry_count = 99) ∧
      s.tried_sources.toFinset.card ≤ 3

/-- Appending one entry grows the set of distinct entries by at most one. -/
theorem card_append_singleton_le (l : List String) (a : String) :
    (l ++ [a]).toFinset.card ≤ l.toFinset.card + 1 := by
  rw [List.toFinset_append]
  calc (l.toFinset ∪ [a].toFinset).card
      ≤ l.toFinset.card + [a].toFinset.card := Finset.card_union_le _ _
    _ = l.toFinset.card + 1 := by simp

/-- Appending an entry already present leaves the set of distinct entries
unchanged. -/
theorem card_append_singleton_mem (l : List String) (a : String) (h : a ∈ l) :
    (l ++ [a]).toFinset.card = l.toFinset.card := by
  rw [List.toFinset_append]
  congr 1
  rw [Finset.union_eq_left]
  intro x hx
  simp only [List.toFinset_cons, List.toFinset_nil, insert_emptyc_eq,
    Finset.mem_singleton] at hx
  subst hx
  exact List.mem_toFinset.mpr h

/-- Case equation: `retry_node` when the fallback list is exhausted. -/
theorem retry_node_none (s : AgentState)
    (hf : (FALLBACK_CHAIN (s.tried_sources.headD s.source)).find?
      (fun fb => fb ∉ s.tried_sources) = none) :
    retry_node s = { s with retry_count := 99 } := by
  simp only [retry_node, hf]

/-- Case equation: `retry_node` when an untried fallback exists. -/
theorem retry_node_some (s : AgentState) (nx : String)
    (hf : (FALLBACK_CHAIN (s.tried_sources.headD s.source)).find?
      (fun fb => fb ∉ s.tried_sources) = some nx) :
    retry_node s =
      { s with source := nx, error := "", retry_count := s.retry_count + 1 } := by
  simp only [retry_node, hf]

/-- `InvC1` is preserved by every step of the graph. -/
theorem stepG_preserves_InvC1 (env : PipelineEnv) :
    ∀ nd s nd' s', InvC1 nd s → stepG env nd s = .ok (nd', s') →
      InvC1 nd' s' := by
  intro nd s nd' s' hinv hst
  cases nd with
  | route =>
    cases hro : route_node env s with
    | raised m => rw [stepG, hro] at hst; cases hst
    | ok s2 c cl =>
      rw [stepG, hro] at hst
      simp only [Except.ok.injEq, Prod.mk.injEq] at hst
      obtain ⟨rfl, rfl⟩ := hst
      obtain ⟨ht, hr⟩ := route_node_resets env s s2 c cl hro
      exact .inl ⟨by omega, by rw [ht, hr]; simp⟩
  | collect =>
    obtain ⟨ht, hr, hsc⟩ := collect_node_fields ⟨env.fetch⟩ s
    rw [stepG] at hst
    by_cases hc : should_retry (collect_node ⟨env.fetch⟩ s) = "analyze"
    · rw [if_pos hc] at hst
      cases hst
      show (_ ∨ _) ∧ _
      rcases hinv with ⟨h2, hcard⟩ | ⟨h99, hmem, hcard⟩
      · exact ⟨.inl (by omega), by rw [ht]; omega⟩
      · refine ⟨.inr (by omega), ?_⟩
        rw [ht, card_append_singleton_mem _ _ hmem]
        exact hcard
    · rw [if_neg hc] at hst
      cases hst
      have hrc2 : s.retry_count ≤ 1 := by
        unfold should_retry at hc
        by_cases h1 : (collect_node ⟨env.fetch⟩ s).items.isEmpty = true
        · by_cases h2 : (collect_node ⟨env.fetch⟩ s).retry_count ≥ 2
          · exact absurd (by simp [h1, h2]) hc
          · omega
        · exact absurd (by simp [h1]) hc
      rcases hinv with ⟨h2, hcard⟩ | ⟨h99, hmem, hcard⟩
      · exact ⟨by omega, by rw [ht, hr]; exact hcard, by
          rw [ht, hsc]; exact List.mem_append_right _ (by simp)⟩
      · omega
  | retry =>
    rw [stepG] at hst
    simp only [Except.ok.injEq, Prod.mk.injEq] at hst
    obtain ⟨rfl, rfl⟩ := hst
    obtain ⟨h1, hcard, hmem⟩ := hinv
    cases hf : (FALLBACK_CHAIN (s.tried_sources.headD s.source)).find?
        (fun fb => fb ∉ s.tried_sources) with
    | none =>
      rw [retry_node_none s hf]
      refine .inr ⟨rfl, hmem, ?_⟩
      show s.tried_sources.toFinset.card ≤ 3
      omega
    | some nx =>
      rw [retry_node_some s nx hf]
      refine .inl ⟨?_, ?_⟩
      · show s.retry_count + 1 ≤ 2
        omega
      · show (s.tried_sources ++ [nx]).toFinset.card ≤ s.retry_count + 1 + 1
        have := card_append_singleton_le s.tried_sources nx
        omega
  | analyze =>
    rw [stepG] at hst
    cases ha : analyze_node env s with
    | error m => rw [ha] at hst; cases hst
    | ok s2 =>
      rw [ha] at hst
      simp only [Except.map, Except.ok.injEq, Prod.mk.injEq] at hst
      obtain ⟨rfl, rfl⟩ := hst
      obtain ⟨ht, hr, _⟩ := analyze_node_fields env s s2 ha
      show (s2.retry_count ≤ 2 ∨ s2.retry_count = 99) ∧
        s2.tried_sources.toFinset.card ≤ 3
      rw [ht, hr]
      exact hinv
  | respond =>
    rw [stepG] at hst
    cases hst
    exact hinv
  | done =>
    rw [stepG] at hst
    cases hst
    exact hinv

/-- C1 (amended): for every pipeline run that terminates, `retry_count` at
termination is either at most `max_retries = 2` or the exhaustion sentinel
`99` (so the spec bound `retry_count ≤ max_retries + 1 = 3` fails exactly
in the sentinel case), and the run visits at most 3 distinct sources. -/
theorem pipeline_retry_and_sources_bounded (env : PipelineEnv) (fuel : Nat)
    (s0 sF : AgentState)
    (hrun : runG env fuel (.route, s0) = .ok (.done, sF)) :
    (sF.retry_count ≤ 2 ∨ sF.retry_count = 99) ∧
    sF.tried_sources.toFinset.card ≤ 3 :=
  runG_inv env InvC1 (stepG_preserves_InvC1 env) fuel .route s0 .done sF
    trivial hrun

/-- C1 counterexample: the pipeline run of the preset weather query in an
environment where every collector returns no items terminates with
`retry_count = 99`, violating the claimed bound
`retry_count ≤ max_retries + 1 = 3`. -/
theorem pipeline_retry_count_exceeds_three :
    runG exenv 12 (.route, exs0) = .ok (.done, exsF) ∧
    ¬ exsF.retry_count ≤ 3 := by
  exact ⟨by decide, by decide⟩

/-- Witness: the retry/source bounds evaluated on the terminating `exenv`
run of the preset weather query. -/
theorem pipeline_retry_and_sources_bounded_witness :
    (exsF.retry_count ≤ 2 ∨ exsF.retry_count = 99) ∧
    exsF.tried_sources.toFinset.card ≤ 3 :=
  pipeline_retry_and_sources_bounded exenv 12 exs0 exsF (by decide)

/-- Unfolding one non-terminal iteration of the runner. -/
theorem runG_succ_step (env : PipelineEnv) (f : Nat) (nd : Node)
    (s : AgentState) (nd2 : Node) (s2 : AgentState) (hnd : nd ≠ .done)
    (hstep : stepG env nd s = .ok (nd2, s2)) :
    runG env (f + 1) (nd, s) = runG env f (nd2, s2) := by
  rw [runG, if_neg hnd, hstep]

/-- A list equals its `dropLast` plus its last element. -/
theorem eq_dropLast_append_of_getLast? (l : List String) (a : String)
    (h : l.getLast? = some a) : l = l.dropLast ++ [a] := by
  induction l using List.reverseRecOn with
  | nil => cases h
  | append_singleton xs b _ =>
    rw [List.getLast?_concat] at h
    cases h
    rw [List.dropLast_concat]

/-- C10: when the retry step finds no untried entry in the fallback list, it
sets `retry_count` to the sentinel 99 and leaves `source` unchanged; the
`retry → collect` edge is unconditional, the extra collect targets the
already-tried current source and is followed by `analyze`; hence the final
state's `tried_sources` is the old trail with the current source appended —
one additional collect — ending in that source twice consecutively. -/
theorem retry_exhaustion_one_more_collect (env : PipelineEnv)
    (s : AgentState) (fuel : Nat) (sF : AgentState)
    (hf : (FALLBACK_CHAIN (s.tried_sources.headD s.source)).find?
      (fun fb => fb ∉ s.tried_sources) = none)
    (hlast : s.tried_sources.getLast? = some s.source)
    (hrun : runG env fuel (.retry, s) = .ok (.done, sF)) :
    retry_node s = { s with retry_count := 99 } ∧
    stepG env .retry s = .ok (.collect, retry_node s) ∧
    should_retry (collect_node ⟨env.fetch⟩ (retry_node s)) = "analyze" ∧
    sF.tried_sources = s.tried_sources.dropLast ++ [s.source, s.source] := by
  have e1 : retry_node s = { s with retry_count := 99 } := retry_node_none s hf
  have e2 : stepG env .retry s = .ok (.collect, retry_node s) := rfl
  have hcf := collect_node_fields ⟨env.fetch⟩ (retry_node s)
  have hrc : (collect_node ⟨env.fetch⟩ (retry_node s)).retry_count = 99 := by
    rw [hcf.2.1, e1]
  have e3 : should_retry (collect_node ⟨env.fetch⟩ (retry_node s)) = "analyze" := by
    unfold should_retry
    rw [hrc]
    by_cases hi : (collect_node ⟨env.fetch⟩ (retry_node s)).items.isEmpty = true <;>
      simp [hi]
  refine ⟨e1, e2, e3, ?_⟩
  -- Peel the retry step.
  cases fuel with
  | zero => rw [runG] at hrun; simp at hrun
  | succ f =>
    rw [runG_succ_step env f .retry s .collect (retry_node s)
      (by simp) e2] at hrun
    -- Peel the collect step.
    cases f with
    | zero => rw [runG] at hrun; simp at hrun
    | succ g =>
      have estep : stepG env .collect (retry_node s) =
          .ok (.analyze, collect_node ⟨env.fetch⟩ (retry_node s)) := by
        rw [stepG, if_pos e3]
      rw [runG_succ_step env g .collect (retry_node s) .analyze
        (collect_node ⟨env.fetch⟩ (retry_node s)) (by simp) estep] at hrun
      -- From analyze on, the trail is frozen.
      have frozen := runG_inv env
        (fun nd st => (nd = .analyze ∨ nd = .respond ∨ nd = .done) ∧
          st.tried_sources =
            (collect_node ⟨env.fetch⟩ (retry_node s)).tried_sources) ?_
        g .analyze (collect_node ⟨env.fetch⟩ (retry_node s)) .done sF
        ⟨.inl rfl, rfl⟩ hrun
      · rw [frozen.2, hcf.1]
        have hts : (retry_node s).tried_sources = s.tried_sources := by rw [e1]
        have hsc : (retry_node s).source = s.source := by rw [e1]
        rw [hts, hsc, eq_dropLast_append_of_getLast? s.tried_sources s.source hlast]
        simp
      · intro nd st nd' st' hi hstp
        rcases hi with ⟨hnd | hnd | hnd, hts⟩ <;> subst hnd
        · rw [stepG] at hstp
          cases ha : analyze_node env st with
          | error m => rw [ha] at hstp; cases hstp
          | ok s2 =>
            rw [ha] at hstp
            simp only [Except.map, Except.ok.injEq, Prod.mk.injEq] at hstp
            obtain ⟨rfl, rfl⟩ := hstp
            exact ⟨.inr (.inl rfl), by
              rw [(analyze_node_fields env st s2 ha).1]; exact hts⟩
        · rw [stepG] at hstp
          simp only [Except.ok.injEq, Prod.mk.injEq] at hstp
          obtain ⟨rfl, rfl⟩ := hstp
          exact ⟨.inr (.inr rfl), hts⟩
        · rw [stepG] at hstp
          simp only [Except.ok.injEq, Prod.mk.injEq] at hstp
          obtain ⟨rfl, rfl⟩ := hstp
          exact ⟨.inr (.inr rfl), hts⟩

/-- Witness: the exhaustion behaviour on the second retry entry of the
`exenv` weather run: the trail ends `["weather", "ddg", "ddg"]`. -/
theorem retry_exhaustion_one_more_collect_witness :
    retry_node exsRetry = { exsRetry with retry_count := 99 } ∧
    stepG exenv .retry exsRetry = .ok (.collect, retry_node exsRetry) ∧
    should_retry (collect_node ⟨exenv.fetch⟩ (retry_node exsRetry)) = "analyze" ∧
    exsF.tried_sources =
      exsRetry.tried_sources.dropLast ++ [exsRetry.source, exsRetry.source] :=
  retry_exhaustion_one_more_collect exenv exsRetry 9 exsF (by decide)
    (by decide) (by decide)

/-- C2: for every input state whose source names a registered collector, the
collect step appends the current source to `tried_sources` and has exactly
the three observable outcomes — non-empty items with the error cleared,
empty items with `error = "No results from <source>"`, or a raised
exception caught and recorded as `error = "Failed: <source> (<msg>)"` —
returning normally in all three cases (`collect_node` is total). -/
theorem collect_node_three_outcomes (env : CollectEnv) (s : AgentState)
    (hs : s.source ∈ REGISTRY_KEYS) :
    (collect_node env s).tried_sources = s.tried_sources ++ [s.source] ∧
    ((∃ raw, env.fetch s.tried_sources.length s.source = .items raw ∧
        raw ≠ [] ∧ (collect_node env s).items = raw.map toTransport ∧
        (collect_node env s).error = "") ∨
     (env.fetch s.tried_sources.length s.source = .items [] ∧
        (collect_node env s).items = [] ∧
        (collect_node env s).error = "No results from " ++ s.source) ∨
     (∃ m, env.fetch s.tried_sources.length s.source = .exn m ∧
        (collect_node env s).items = [] ∧
        (collect_node env s).error =
          "Failed: " ++ s.source ++ " (" ++ m ++ ")")) := by
  unfold collect_node get_collector
  rw [if_pos hs]
  cases hf : env.fetch s.tried_sources.length s.source with
  | items raw =>
    cases raw with
    | nil => simp
    | cons a l =>
      refine ⟨by simp [List.isEmpty], .inl ⟨a :: l, rfl, by simp, ?_, ?_⟩⟩ <;>
        simp [List.isEmpty]
  | exn m => exact ⟨by simp, .inr (.inr ⟨m, rfl, by simp, by simp⟩)⟩

/-- Witness: `collect_node_three_outcomes` at the preset weather query under
the environment whose collector returns one item. -/
theorem collect_node_three_outcomes_witness :
    (collect_node ⟨exenvHit.fetch⟩ exs0).tried_sources =
      exs0.tried_sources ++ [exs0.source] ∧
    ((∃ raw, exenvHit.fetch exs0.tried_sources.length exs0.source = .items raw ∧
        raw ≠ [] ∧
        (collect_node ⟨exenvHit.fetch⟩ exs0).items = raw.map toTransport ∧
        (collect_node ⟨exenvHit.fetch⟩ exs0).error = "") ∨
     (exenvHit.fetch exs0.tried_sources.length exs0.source = .items [] ∧
        (collect_node ⟨exenvHit.fetch⟩ exs0).items = [] ∧
        (collect_node ⟨exenvHit.fetch⟩ exs0).error =
          "No results from " ++ exs0.source) ∨
     (∃ m, exenvHit.fetch exs0.tried_sources.length exs0.source = .exn m ∧
        (collect_node ⟨exenvHit.fetch⟩ exs0).items = [] ∧
        (collect_node ⟨exenvHit.fetch⟩ exs0).error =
          "Failed: " ++ exs0.source ++ " (" ++ m ++ ")")) :=
  collect_node_three_outcomes ⟨exenvHit.fetch⟩ exs0 (by decide)

/-- C3: every terminating pipeline run ends with a response of at most 4096
characters, and whenever the assembled header-plus-analysis exceeds 4096
characters the respond step truncates it to its first 4090 characters plus
a trailing `"\n..."` ellipsis. -/
theorem response_capped (env : PipelineEnv) :
    (∀ fuel s0 sF, runG env fuel (.route, s0) = .ok (.done, sF) →
      sF.response.length ≤ 4096) ∧
    (∀ s, (respond_full env s).length > 4096 →
      (respond_node env s).response = pySlice (respond_full env s) 4090 ++ "\n..." ∧
      ("..." : String).data <:+ ((respond_node env s).response).data) := by
  constructor
  · intro fuel s0 sF hrun
    have key := runG_inv env
      (fun nd s => nd = .done → s.response.length ≤ 4096) ?_ fuel
      .route s0 .done sF (by intro h; cases h) hrun
    · exact key rfl
    · intro nd s nd' s' hinv hst
      cases nd with
      | route =>
        intro hdone
        cases hd : route_node env s with
        | ok s2 c cl => rw [stepG, hd] at hst; cases hst; cases hdone
        | raised m => rw [stepG, hd] at hst; cases hst
      | collect =>
        intro hdone
        rw [stepG] at hst
        by_cases hc : should_retry (collect_node ⟨env.fetch⟩ s) = "analyze" <;>
          simp [hc] at hst <;> obtain ⟨h1, _⟩ := hst <;> cases h1 ▸ hdone
      | retry => intro hdone; rw [stepG] at hst; cases hst; cases hdone
      | analyze =>
        intro hdone
        rw [stepG] at hst
        cases ha : analyze_node env s with
        | error m => rw [ha] at hst; cases hst
        | ok s2 =>
          rw [ha] at hst
          cases hst
          cases hdone
      | respond =>
        intro _
        rw [stepG] at hst
        cases hst
        exact respond_node_length_le env s
      | done =>
        intro _
        rw [stepG] at hst
        cases hst
        exact hinv rfl
  · intro s h
    constructor
    · show (if (respond_full env s).length > 4096 then
          pySlice (respond_full env s) 4090 ++ "\n..."
        else respond_full env s) = _
      rw [if_pos h]
    · show ("..." : String).data <:+ (if (respond_full env s).length > 4096 then
          pySlice (respond_full env s) 4090 ++ "\n..."
        else respond_full env s).data
      rw [if_pos h]
      refine ⟨(pySlice (respond_full env s) 4090).data ++ ['\n'], ?_⟩
      show ((pySlice (respond_full env s) 4090).data ++ ['\n']) ++
        ("..." : String).data =
        ((pySlice (respond_full env s) 4090) ++ "\n...").data
      have : ("\n..." : String).data = ['\n'] ++ ("..." : String).data := rfl
      cases hps : pySlice (respond_full env s) 4090 with
      | mk l =>
        show (l ++ ['\n']) ++ ("..." : String).data = l ++ ("\n..." : String).data
        rw [this, List.append_assoc]

/-- Witness: the response cap evaluated on the terminating `exenv` run of
the preset weather query, and the truncation equation on a state with a
5000-character analysis. -/
theorem response_capped_witness :
    exsF.response.length ≤ 4096 ∧
    (respond_node exenv longAnalysisState).response =
      pySlice (respond_full exenv longAnalysisState) 4090 ++ "\n..." :=
  ⟨(response_capped exenv).1 12 exs0 exsF (by decide),
   ((response_capped exenv).2 longAnalysisState (by
      rw [respond_full, strLength_append]
      have h5 : longAnalysisState.analysis.length = 5000 := by
        show (List.replicate 5000 'a').length = 5000
        rw [List.length_replicate]
      omega)).1⟩

/-- C4 (amended): registry lookup of a name absent from the registry fails
with the UnknownSource `ValueError`; but when such a source reaches the
pipeline's collect step (caller-preset), `collect_node` catches that
exception like any collector failure and rewrites it into the
collector-miss error `Failed: <source> (<message>)` with empty items, and —
while `retry_count` is below the cap — the conditional edge routes to the
retry node, engaging the fallback chain. -/
theorem unknown_source_rewritten (env : PipelineEnv) (s : AgentState)
    (h : s.source ∉ REGISTRY_KEYS) (hrc : s.retry_count < 2) :
    get_collector s.source = .error (unknownCollectorMsg s.source) ∧
    (collect_node ⟨env.fetch⟩ s).error =
      "Failed: " ++ s.source ++ " (" ++ unknownCollectorMsg s.source ++ ")" ∧
    (collect_node ⟨env.fetch⟩ s).items = [] ∧
    stepG env .collect s = .ok (.retry, collect_node ⟨env.fetch⟩ s) := by
  have hg : get_collector s.source = .error (unknownCollectorMsg s.source) := by
    unfold get_collector
    rw [if_neg h]
  have hcn : collect_node ⟨env.fetch⟩ s =
      { s with
        items := [],
        error := "Failed: " ++ s.source ++ " (" ++ unknownCollectorMsg s.source ++ ")",
        tried_sources := s.tried_sources ++ [s.source] } := by
    unfold collect_node
    rw [hg]
  refine ⟨hg, by rw [hcn], by rw [hcn], ?_⟩
  have hsr : should_retry (collect_node ⟨env.fetch⟩ s) = "retry" := by
    unfold should_retry
    rw [hcn]
    simp
    omega
  rw [stepG, if_neg (by rw [hsr]; decide)]

/-- Witness: `unknown_source_rewritten` at the caller-preset unknown source
`"bogus"`. -/
theorem unknown_source_rewritten_witness :
    get_collector bogusState.source =
      .error (unknownCollectorMsg bogusState.source) ∧
    (collect_node ⟨exenv.fetch⟩ bogusState).error =
      "Failed: " ++ bogusState.source ++ " (" ++
        unknownCollectorMsg bogusState.source ++ ")" ∧
    (collect_node ⟨exenv.fetch⟩ bogusState).items = [] ∧
    stepG exenv .collect bogusState =
      .ok (.retry, collect_node ⟨exenv.fetch⟩ bogusState) :=
  unknown_source_rewritten exenv bogusState (by decide) (by decide)

set_option maxRecDepth 8000 in
/-- C4 counterexample: the pipeline does not raise the UnknownSource error
of the preset source `"bogus"` to the caller — `collect_node` returns
normally with the rewritten `Failed: bogus (...)` message, the run proceeds
to the retry node, and the fallback chain selects `"news"`. -/
theorem unknown_source_engages_fallback :
    stepG exenv .collect bogusState =
      .ok (.retry, collect_node ⟨exenv.fetch⟩ bogusState) ∧
    (collect_node ⟨exenv.fetch⟩ bogusState).error =
      "Failed: bogus (" ++ unknownCollectorMsg "bogus" ++ ")" ∧
    (retry_node (collect_node ⟨exenv.fetch⟩ bogusState)).source = "news" := by
  exact ⟨by decide, by decide, by decide⟩

/-- C5 (amended): when the caller did not preset both source and query and
`get_llm_client` succeeds, `route_node` always returns normally with the
handle closed (`.ok _ true true`) and a registry source; a failing LLM
call, a failing JSON parse, or a parsed source outside the registry each
yield `source = "news"` (with `query = user_message` in the failure cases,
and the parsed query under coercion). A failure constructing the client,
by contrast, propagates (spec §7: ConfigMissing is raised at factory
time). -/
theorem route_node_recovery (env : PipelineEnv) (s : AgentState)
    (hpre : ¬(s.source ≠ "" ∧ s.query ≠ "")) (hc : env.routeConstruct = .ok ()) :
    (∃ s', route_node env s = .ok s' true true ∧ s'.tried_sources = [] ∧
      s'.retry_count = 0 ∧ s'.source ∈ AVAILABLE_SOURCES) ∧
    (∀ m, env.routeCompletion = .error m →
      route_node env s = .ok
        { s with
          source := "news", query := s.user_message,
          tried_sources := [], retry_count := 0 } true true) ∧
    (∀ raw m, env.routeCompletion = .ok raw →
      env.jsonParse (route_text raw) = .error m →
      route_node env s = .ok
        { s with
          source := "news", query := s.user_message,
          tried_sources := [], retry_count := 0 } true true) ∧
    (∀ raw kvs, env.routeCompletion = .ok raw →
      env.jsonParse (route_text raw) = .ok kvs →
      (kvs.lookup "source").getD "news" ∉ AVAILABLE_SOURCES →
      route_node env s = .ok
        { s with
          source := "news", query := (kvs.lookup "query").getD s.user_message,
          tried_sources := [], retry_count := 0 } true true) := by
  have hbody : route_node env s =
      match env.routeCompletion with
      | .error _ =>
          .ok { s with
                source := "news", query := s.user_message,
                tried_sources := [], retry_count := 0 } true true
      | .ok raw =>
        match env.jsonParse (route_text raw) with
        | .error _ =>
            .ok { s with
                  source := "news", query := s.user_message,
                  tried_sources := [], retry_count := 0 } true true
        | .ok kvs =>
          .ok { s with
                source := if (kvs.lookup "source").getD "news" ∈ AVAILABLE_SOURCES
                  then (kvs.lookup "source").getD "news" else "news",
                query := (kvs.lookup "query").getD s.user_message,
                tried_sources := [], retry_count := 0 } true true := by
    unfold route_node
    rw [if_neg hpre, hc]
  refine ⟨?_, ?_, ?_, ?_⟩
  · cases hcc : env.routeCompletion with
    | error m =>
      simp only [hbody, hcc]
      exact ⟨_, rfl, rfl, rfl, show "news" ∈ AVAILABLE_SOURCES by decide⟩
    | ok raw =>
      cases hp : env.jsonParse (route_text raw) with
      | error m =>
        simp only [hbody, hcc, hp]
        exact ⟨_, rfl, rfl, rfl, show "news" ∈ AVAILABLE_SOURCES by decide⟩
      | ok kvs =>
        simp only [hbody, hcc, hp]
        by_cases hin : (kvs.lookup "source").getD "news" ∈ AVAILABLE_SOURCES
        · exact ⟨_, rfl, rfl, rfl, by simp only [if_pos hin]; exact hin⟩
        · exact ⟨_, rfl, rfl, rfl, by
            simp only [if_neg hin]
            show "news" ∈ AVAILABLE_SOURCES
            decide⟩
  · intro m hm
    simp only [hbody, hm]
  · intro raw m hraw hm
    simp only [hbody, hraw, hm]
  · intro raw kvs hraw hkvs hout
    simp only [hbody, hraw, hkvs, if_neg hout]

/-- Witness: `route_node_recovery` on a free-text request when the LLM call
fails after a successful construction. -/
theorem route_node_recovery_witness :
    (∃ s', route_node wenvDown wsFree = .ok s' true true ∧
      s'.tried_sources = [] ∧ s'.retry_count = 0 ∧
      s'.source ∈ AVAILABLE_SOURCES) ∧
    route_node wenvDown wsFree = .ok
      { wsFree with
        source := "news", query := wsFree.user_message,
        tried_sources := [], retry_count := 0 } true true := by
  have h := route_node_recovery wenvDown wsFree (by decide) rfl
  exact ⟨h.1, h.2.1 "LLM down" rfl⟩

/-- C5 counterexample: with no preset source/query and a failing
`get_llm_client` (missing provider key), the route step does not return
normally — the construction exception propagates to the caller, because the
client is constructed outside the `try`. -/
theorem route_construct_failure_propagates :
    route_node wenvFail wsFree =
      .raised "OPENROUTER_API_KEY is required when using openrouter provider" := by
  decide

/-- The retry loop makes at most `remaining` further `_fetch` calls. -/
theorem collect_loop_calls_le (fetch : Nat → Except String (List CollectedItem))
    (base : ℚ) : ∀ r a, (collect_loop fetch base a r).2.1 ≤ a + r := by
  intro r
  induction r with
  | zero => intro a; rw [collect_loop]; simp
  | succ n ih =>
    intro a
    rw [collect_loop]
    cases hf : fetch a with
    | ok items =>
      show a + 1 ≤ a + (n + 1)
      omega
    | error e =>
      by_cases hn : n = 0
      · subst hn
        simp only [if_pos rfl]
        show a + 1 ≤ a + (0 + 1)
        omega
      · simp only [if_neg hn]
        show (collect_loop fetch base (a + 1) n).2.1 ≤ a + (n + 1)
        have := ih (a + 1)
        omega

/-- Back-off sleeps of the retry loop: consecutive powers of two starting
at the loop's first attempt, one per failed non-final attempt. -/
theorem collect_loop_sleeps (fetch : Nat → Except String (List CollectedItem))
    (base : ℚ) : ∀ r a,
    (collect_loop fetch base a r).2.2 =
      (List.range (collect_loop fetch base a r).2.2.length).map
        (fun i => base * 2 ^ (a + i)) ∧
    (collect_loop fetch base a r).2.2.length ≤ r - 1 ∧
    (∀ i, i < (collect_loop fetch base a r).2.2.length →
      isErrorB (fetch (a + i)) = true) := by
  intro r
  induction r with
  | zero =>
    intro a
    rw [collect_loop]
    exact ⟨rfl, by simp, by simp⟩
  | succ n ih =>
    intro a
    rw [collect_loop]
    cases hf : fetch a with
    | ok items => exact ⟨rfl, by simp, by simp⟩
    | error e =>
      by_cases hn : n = 0
      · subst hn
        simp only [if_pos rfl]
        exact ⟨rfl, by simp, by simp⟩
      · simp only [if_neg hn]
        obtain ⟨ihs, ihl, ihf⟩ := ih (a + 1)
        refine ⟨?_, by simp; omega, ?_⟩
        · show base * 2 ^ a :: (collect_loop fetch base (a + 1) n).2.2 =
            (List.range ((base * 2 ^ a :: (collect_loop fetch base (a + 1) n).2.2).length)).map
              (fun i => base * 2 ^ (a + i))
          rw [ihs]
          simp only [List.length_cons, List.length_map, List.length_range]
          rw [List.range_succ_eq_map, List.map_cons, List.map_map]
          congr 1
          refine List.map_congr_left ?_
          intro i _
          show base * 2 ^ (a + 1 + i) = base * 2 ^ (a + (i + 1))
          congr 2
          omega
        · intro i hi
          show isErrorB (fetch (a + i)) = true
          cases i with
          | zero => simpa [isErrorB] using congrArg isErrorB hf
          | succ j =>
            have : a + (j + 1) = a + 1 + j := by omega
            rw [this]
            refine ihf j ?_
            simp at hi
            omega

/-- A successful first fetch returns immediately: one call, no sleeps. -/
theorem collect_loop_first_ok (fetch : Nat → Except String (List CollectedItem))
    (base : ℚ) (a n : Nat) (l : List CollectedItem) (hf : fetch a = .ok l) :
    collect_loop fetch base a (n + 1) = (.ok l, a + 1, []) := by
  rw [collect_loop, hf]

/-- When every attempt fails, the loop propagates the final attempt's
error. -/
theorem collect_loop_all_fail (fetch : Nat → Except String (List CollectedItem))
    (base : ℚ) : ∀ r a, 0 < r →
    (∀ i, a ≤ i → i < a + r → isErrorB (fetch i) = true) →
    (collect_loop fetch base a r).1 = fetch (a + r - 1) := by
  intro r
  induction r with
  | zero => intro a h; omega
  | succ n ih =>
    intro a _ hall
    rw [collect_loop]
    cases hf : fetch a with
    | ok items =>
      have := hall a (Nat.le_refl a) (by omega)
      rw [hf] at this
      simp [isErrorB] at this
    | error e =>
      by_cases hn : n = 0
      · subst hn
        simp only [if_pos rfl]
        show Except.error e = fetch (a + 1 - 1)
        have : a + 1 - 1 = a := by omega
        rw [this, hf]
      · simp only [if_neg hn]
        show (collect_loop fetch base (a + 1) n).1 = fetch (a + (n + 1) - 1)
        have := ih (a + 1) (by omega) (fun i h1 h2 => hall i (by omega) (by omega))
        rw [this]
        congr 1
        omega

/-- C6: `BaseCollector.collect` attempts the fetch at most `max_retries`
times; the sleeps are exactly `base_delay * 2 ^ i` for the failed non-final
attempts `i = 0, 1, ...` (at most `max_retries - 1` of them); an immediate
(possibly empty) fetch result is returned as-is after one call with no
sleep; and if every attempt fails the final attempt's error is
propagated. -/
theorem base_collect_retry_backoff
    (fetch : Nat → Except String (List CollectedItem))
    (max_retries : Nat) (base_delay : ℚ) :
    (base_collect fetch max_retries base_delay).2.1 ≤ max_retries ∧
    (base_collect fetch max_retries base_delay).2.2 =
      (List.range (base_collect fetch max_retries base_delay).2.2.length).map
        (fun i => base_delay * 2 ^ i) ∧
    (base_collect fetch max_retries base_delay).2.2.length ≤ max_retries - 1 ∧
    (∀ i, i < (base_collect fetch max_retries base_delay).2.2.length →
      isErrorB (fetch i) = true) ∧
    (∀ l, fetch 0 = .ok l → 0 < max_retries →
      base_collect fetch max_retries base_delay = (.ok l, 1, [])) ∧
    (0 < max_retries → (∀ i, i < max_retries → isErrorB (fetch i) = true) →
      (base_collect fetch max_retries base_delay).1 = fetch (max_retries - 1)) := by
  unfold base_collect
  obtain ⟨hs, hl, hf⟩ := collect_loop_sleeps fetch base_delay max_retries 0
  refine ⟨?_, ?_, hl, ?_, ?_, ?_⟩
  · have := collect_loop_calls_le fetch base_delay max_retries 0
    omega
  · rw [hs]
    simp only [List.length_map, List.length_range]
    refine List.map_congr_left ?_
    intro i _
    show base_delay * 2 ^ (0 + i) = base_delay * 2 ^ i
    congr 2
    omega
  · intro i hi
    have h := hf i hi
    rwa [Nat.zero_add] at h
  · intro l h0 hpos
    cases max_retries with
    | zero => omega
    | succ n => exact collect_loop_first_ok fetch base_delay 0 n l h0
  · intro hpos hall
    have h := collect_loop_all_fail fetch base_delay max_retries 0 hpos
      (fun i _ h2 => hall i (by omega))
    rwa [Nat.zero_add] at h

/-- Witness: the retry/backoff contract on an always-failing fetch (final
error propagated after at most 3 calls) and on a fetch whose first call
returns the empty list (returned immediately, no retry). -/
theorem base_collect_retry_backoff_witness :
    (base_collect exfetchFail 3 1).2.1 ≤ 3 ∧
    (base_collect exfetchFail 3 1).1 = exfetchFail 2 ∧
    base_collect exfetchEmpty 3 1 = (.ok [], 1, []) := by
  have h1 := base_collect_retry_backoff exfetchFail 3 1
  have h2 := base_collect_retry_backoff exfetchEmpty 3 1
  exact ⟨h1.1, by simpa using h1.2.2.2.2.2 (by omega) (by decide),
    h2.2.2.2.2.1 [] rfl (by omega)⟩

/-- C7 (amended): every validated CollectedItem carries the supplied
(non-null) `source` and `title`; `url` and `published_at` default to the
empty string and `metadata` to the empty map when the collector does not
supply them; but `content` is also required and does not default. The
weather collector's JSON-branch item supplies source `"weather_wttr"` and a
`Weather: <area>, <country>` title. -/
theorem collected_item_required_and_defaults :
    (∀ f i, mkCollectedItem f = .ok i →
      f.source = some i.source ∧ f.title = some i.title ∧
      f.content = some i.content ∧
      (f.url = none → i.url = "") ∧
      (f.published_at = none → i.published_at = "") ∧
      (f.metadata = none → i.metadata = [])) ∧
    (∀ area country desc tc tf fl hum wind loc fc, ∃ i,
      mkCollectedItem
        (weather_j1_fields area country desc tc tf fl hum wind loc fc) =
        .ok i ∧
      i.source = "weather_wttr" ∧
      i.title = "Weather: " ++ area ++ ", " ++ country) := by
  constructor
  · intro f i h
    unfold mkCollectedItem at h
    split at h
    · next s t c hs ht hc =>
      cases h
      refine ⟨hs, ht, hc, ?_, ?_, ?_⟩ <;> intro hx <;> simp [hx]
    · cases h
  · intro area country desc tc tf fl hum wind loc fc
    exact ⟨_, rfl, rfl, rfl⟩

/-- Witness: the schema facts on a fully-supplied arXiv-style item. -/
theorem collected_item_required_and_defaults_witness :
    mkCollectedItem plainFields = .ok plainItem ∧
    plainFields.source = some plainItem.source ∧
    plainFields.title = some plainItem.title ∧
    plainItem.url = "" ∧ plainItem.published_at = "" ∧
    plainItem.metadata = [] := by
  have h := collected_item_required_and_defaults.1 plainFields plainItem
    (by decide)
  exact ⟨by decide, h.1, h.2.1, h.2.2.2.1 rfl, h.2.2.2.2.1 rfl,
    h.2.2.2.2.2 rfl⟩

/-- C7 counterexample: `content` has no default — field values supplying
only `source` and `title` fail validation instead of yielding an item with
`content = ""`. -/
theorem content_has_no_default :
    mkCollectedItem contentlessFields =
      .error "ValidationError: field required" ∧
    mkCollectedItem contentlessFields ≠
      .ok { source := "s", title := "t", content := "" } := by
  exact ⟨by decide, by decide⟩

/-- The upsert's row rewrite preserves the count of rows with a given
phone number. -/
theorem countP_map_add_upd (p prefs : String) (db : List WhatsAppSubscriber) :
    ((db.map (fun r => if r.phone_number == p
        then { r with active := 1, preferences := prefs } else r)).countP
      (fun r => r.phone_number == p)) =
    db.countP (fun r => r.phone_number == p) := by
  rw [List.countP_map]
  refine List.countP_congr ?_
  intro r _
  show ((if (r.phone_number == p) = true
      then { r with active := 1, preferences := prefs } else r).phone_number == p)
    = true ↔ (r.phone_number == p) = true
  by_cases h : (r.phone_number == p) = true
  · rw [if_pos h]
  · rw [if_neg h]

/-- The soft delete's row rewrite preserves the count of rows with a given
phone number. -/
theorem countP_map_remove_upd (p : String) (db : List WhatsAppSubscriber) :
    ((db.map (fun r => if r.phone_number == p
        then { r with active := 0 } else r)).countP
      (fun r => r.phone_number == p)) =
    db.countP (fun r => r.phone_number == p) := by
  rw [List.countP_map]
  refine List.countP_congr ?_
  intro r _
  show ((if (r.phone_number == p) = true
      then { r with active := 0 } else r).phone_number == p)
    = true ↔ (r.phone_number == p) = true
  by_cases h : (r.phone_number == p) = true
  · rw [if_pos h]
  · rw [if_neg h]

/-- The upsert's row rewrite leaves the phone-number column unchanged. -/
theorem phones_map_add_upd (p prefs : String) (db : List WhatsAppSubscriber) :
    (db.map (fun r => if r.phone_number == p
        then { r with active := 1, preferences := prefs } else r)).map
      (fun r => r.phone_number) =
    db.map (fun r => r.phone_number) := by
  rw [List.map_map]
  refine List.map_congr_left ?_
  intro r _
  show (if (r.phone_number == p) = true
    then { r with active := 1, preferences := prefs } else r).phone_number =
    r.phone_number
  by_cases h : (r.phone_number == p) = true
  · rw [if_pos h]
  · rw [if_neg h]

/-- Under the UNIQUE constraint at most one row carries a given phone
number. -/
theorem countP_le_one_of_nodup (p : String) (db : List WhatsAppSubscriber)
    (h : (db.map (fun r => r.phone_number)).Nodup) :
    db.countP (fun r => r.phone_number == p) ≤ 1 := by
  induction db with
  | nil => simp
  | cons r t ih =>
    simp only [List.map_cons, List.nodup_cons] at h
    obtain ⟨hnot, hnd⟩ := h
    simp only [List.countP_cons]
    by_cases hp : (r.phone_number == p) = true
    · have hpe : r.phone_number = p := by simpa using hp
      have hz : t.countP (fun r => r.phone_number == p) = 0 := by
        rw [List.countP_eq_zero]
        intro a ha hap
        have hae : a.phone_number = p := by simpa using hap
        exact hnot (by
          rw [hpe, ← hae]
          exact List.mem_map_of_mem (fun r => r.phone_number) ha)
      simp [hp, hz]
    · have := ih hnd
      simp [hp]
      omega

/-- Subscribing yields exactly one row for the phone number. -/
theorem add_countP_eq_one (p prefs : String) (db : List WhatsAppSubscriber)
    (h : (db.map (fun r => r.phone_number)).Nodup) :
    (add_wa_subscriber p prefs db).countP (fun r => r.phone_number == p) = 1 := by
  unfold add_wa_subscriber
  cases hfind : db.find? (fun r => r.phone_number == p) with
  | some r0 =>
    rw [countP_map_add_upd]
    have hq := List.find?_some hfind
    have hmem : r0 ∈ db := List.mem_of_find?_eq_some hfind
    have hpos : 0 < db.countP (fun r => r.phone_number == p) :=
      List.countP_pos_iff.mpr ⟨r0, hmem, hq⟩
    have hle := countP_le_one_of_nodup p db h
    omega
  | none =>
    rw [List.countP_append]
    have h0 : db.countP (fun r => r.phone_number == p) = 0 := by
      rw [List.countP_eq_zero]
      intro a ha
      simpa using List.find?_eq_none.mp hfind a ha
    simp [h0]

/-- Subscribing preserves the UNIQUE phone-number constraint. -/
theorem add_phones_nodup (p prefs : String) (db : List WhatsAppSubscriber)
    (h : (db.map (fun r => r.phone_number)).Nodup) :
    ((add_wa_subscriber p prefs db).map (fun r => r.phone_number)).Nodup := by
  unfold add_wa_subscriber
  cases hfind : db.find? (fun r => r.phone_number == p) with
  | some r0 => rw [phones_map_add_upd]; exact h
  | none =>
    rw [List.map_append]
    refine List.Nodup.append h (by simp) ?_
    intro a ha hb
    simp only [List.map_cons, List.map_nil, List.mem_singleton] at hb
    subst hb
    obtain ⟨r1, hr1, hph⟩ := List.mem_map.mp ha
    have := List.find?_eq_none.mp hfind r1 hr1
    simp [hph] at this

/-- After a subscribe, every row for the phone number is active. -/
theorem add_active_of_phone (p prefs : String) (db : List WhatsAppSubscriber) :
    ∀ r' ∈ add_wa_subscriber p prefs db, r'.phone_number = p →
      r'.active = 1 := by
  unfold add_wa_subscriber
  cases hfind : db.find? (fun r => r.phone_number == p) with
  | some r0 =>
    intro r' hr' hp
    obtain ⟨r1, hr1, heq⟩ := List.mem_map.mp hr'
    by_cases h1 : (r1.phone_number == p) = true
    · rw [if_pos h1] at heq
      rw [← heq]
    · rw [if_neg h1] at heq
      subst heq
      simp [hp] at h1
  | none =>
    intro r' hr' hp
    rcases List.mem_append.mp hr' with hmem | hmem
    · have := List.find?_eq_none.mp hfind r' hmem
      simp [hp] at this
    · simp only [List.mem_singleton] at hmem
      subst hmem
      rfl

/-- After an unsubscribe that found its row, every row for the phone number
is inactive. -/
theorem remove_active_of_phone (p : String) (db : List WhatsAppSubscriber)
    (hex : ∃ r0 ∈ db, (r0.phone_number == p) = true) :
    ∀ r' ∈ remove_wa_subscriber p db, r'.phone_number = p →
      r'.active = 0 := by
  unfold remove_wa_subscriber
  cases hfind : db.find? (fun r => r.phone_number == p) with
  | none =>
    exfalso
    obtain ⟨r0, hmem, hq⟩ := hex
    have := List.find?_eq_none.mp hfind r0 hmem
    exact this hq
  | some r0 =>
    intro r' hr' hp
    obtain ⟨r1, hr1, heq⟩ := List.mem_map.mp hr'
    by_cases h1 : (r1.phone_number == p) = true
    · rw [if_pos h1] at heq
      rw [← heq]
    · rw [if_neg h1] at heq
      subst heq
      simp [hp] at h1

/-- When every row for the phone number is active, the active-only
enumeration sees the same count for it. -/
theorem get_countP_of_active (p : String) (l : List WhatsAppSubscriber)
    (hact : ∀ r ∈ l, r.phone_number = p → r.active = 1) :
    (get_wa_subscribers l).countP (fun r => r.phone_number == p) =
      l.countP (fun r => r.phone_number == p) := by
  unfold get_wa_subscribers
  induction l with
  | nil => rfl
  | cons r t ih =>
    have hactT : ∀ r' ∈ t, r'.phone_number = p → r'.active = 1 :=
      fun r' hmem hp => hact r' (List.mem_cons_of_mem _ hmem) hp
    simp only [List.filter_cons, List.countP_cons]
    by_cases hp : (r.phone_number == p) = true
    · have ha : r.active = 1 := hact r (List.mem_cons_self _ _) (by simpa using hp)
      rw [if_pos (by simp [ha])]
      simp [List.countP_cons, hp, ih hactT]
    · by_cases hk : (r.active == 1) = true
      · rw [if_pos hk]
        simp [List.countP_cons, hp, ih hactT]
      · rw [if_neg hk]
        simp [hp, ih hactT]

/-- C8: subscribe is an upsert and unsubscribe a soft delete — for any
uniquely-keyed subscriber table, Subscribe(p); Subscribe(p) leaves exactly
one active row for `p` (the second subscribe flips/overwrites, never
duplicates), and Subscribe(p); Unsubscribe(p) leaves no active row
for `p`. -/
theorem subscriber_upsert_roundtrip (db : List WhatsAppSubscriber)
    (p prefs prefs' : String)
    (h : (db.map (fun r => r.phone_number)).Nodup) :
    (get_wa_subscribers (add_wa_subscriber p prefs'
        (add_wa_subscriber p prefs db))).countP
      (fun r => r.phone_number == p) = 1 ∧
    (∀ r ∈ get_wa_subscribers (remove_wa_subscriber p
        (add_wa_subscriber p prefs db)), r.phone_number ≠ p) := by
  constructor
  · rw [get_countP_of_active p _ (add_active_of_phone p prefs' _)]
    exact add_countP_eq_one p prefs' _ (add_phones_nodup p prefs db h)
  · intro r hr hp
    unfold get_wa_subscribers at hr
    obtain ⟨hmem, hactv⟩ := List.mem_filter.mp hr
    have hcnt := add_countP_eq_one p prefs db h
    have hex : ∃ r0 ∈ add_wa_subscriber p prefs db,
        (r0.phone_number == p) = true :=
      List.countP_pos_iff.mp (by omega)
    have h0 := remove_active_of_phone p _ hex r hmem hp
    have h1 : r.active = 1 := by simpa using hactv
    omega

/-- Witness: the subscriber round-trips starting from the empty table. -/
theorem subscriber_upsert_roundtrip_witness :
    (get_wa_subscribers (add_wa_subscriber "+15550001111" "news"
        (add_wa_subscriber "+15550001111" "news,crypto,stocks" []))).countP
      (fun r => r.phone_number == "+15550001111") = 1 ∧
    get_wa_subscribers (remove_wa_subscriber "+15550001111"
      (add_wa_subscriber "+15550001111" "news,crypto,stocks" [])) = [] :=
  ⟨(subscriber_upsert_roundtrip [] "+15550001111" "news,crypto,stocks" "news"
      (by decide)).1,
   by decide⟩

/-- C9: the scheduler's next-wake instant is the unique occurrence of
`hour:minute` strictly after the current time: it is strictly in the
future, at most 24 hours ahead, falls exactly at the target time of day,
and no earlier instant at that time of day lies strictly after `now`; in
particular, re-evaluating at `T + e` shortly after firing at the target
instant `T` schedules `T + 1 day`, never `T` again. -/
theorem next_wake_strictly_future (hour minute now : Nat)
    (hh : hour < 24) (hm : minute < 60) :
    now < next_wake hour minute now ∧
    next_wake hour minute now ≤ now + DAY ∧
    next_wake hour minute now % DAY = target_tod hour minute ∧
    (∀ t, now < t → t % DAY = target_tod hour minute →
      next_wake hour minute now ≤ t) ∧
    (∀ T e, T % DAY = target_tod hour minute →
      target_tod hour minute + e < DAY →
      next_wake hour minute (T + e) = T + DAY) := by
  refine ⟨?_, ?_, ?_, ?_, ?_⟩
  · simp only [next_wake, target_tod, DAY]
    split <;> omega
  · simp only [next_wake, target_tod, DAY]
    split <;> omega
  · simp only [next_wake, target_tod, DAY]
    split <;> omega
  · intro t ht htod
    simp only [target_tod, DAY] at htod
    simp only [next_wake, target_tod, DAY]
    split <;> omega
  · intro T e hT he
    simp only [target_tod, DAY] at hT he
    simp only [next_wake, target_tod, DAY]
    split <;> omega

/-- Witness: at 07:00:05 UTC on the day of a 07:00 fire, the next wake is
exactly the 07:00 instant of the following day. -/
theorem next_wake_strictly_future_witness :
    25205 < next_wake 7 0 25205 ∧
    next_wake 7 0 25205 ≤ 25205 + DAY ∧
    next_wake 7 0 25205 % DAY = target_tod 7 0 ∧
    next_wake 7 0 (25200 + 5) = 25200 + DAY := by
  have h := next_wake_strictly_future 7 0 25205 (by omega) (by omega)
  exact ⟨h.1, h.2.1, h.2.2.1, h.2.2.2.2 25200 5 (by decide) (by decide)⟩

end ResearchAgent
